import Mathlib

/-!
# Verification of the pairing library's field, curve and pairing layers

Shallow embedding of `src/field.rs`, `src/elliptic_curve.rs`, `src/errors.rs`
and `src/pairings.rs`.  `rug::Integer` is embedded as `Int`; the `rug` operator
`%` is truncated remainder (`Int.tmod`) and `/` is truncated division
(`Int.tdiv`).  A `PrimeField<P>` value is its single `value : Integer` field,
so the carrier of the prime-field embedding is `Int` and the modulus `P` is an
explicit parameter of every operation.  Loops whose iteration count depends on
random draws are metered by an explicit fuel argument, and every random draw is
read off an oracle `Nat → Int` (the RNG collaborator); `none` means the fuel
ran out, i.e. the source loop has not terminated within the metered bound.
-/

/-- `ErrorKind` from `src/errors.rs`, extended with a `StaticStr` case that
embeds the plain `&'static str` errors used by `ECPoint::line` and
`ECPoint::invert` in `src/elliptic_curve.rs` (in the source those functions
return `Result<_, &'static str>`, a distinct error type from `ErrorKind`). -/
inductive ErrorKind where
  | InvalidInput : String → ErrorKind
  | NonQuadraticResidue : ErrorKind
  | NoInverse : ErrorKind
  | StaticStr : String → ErrorKind
  deriving DecidableEq, Repr

/-- True exactly on the `ErrorKind::InvalidInput` variant of `src/errors.rs`. -/
def ErrorKind.isInvalidInput : ErrorKind → Bool
  | .InvalidInput _ => true
  | _ => false

/-- The shared square-and-multiply recursion of `PrimeField::zpow` /
`PrimeField::pow` (src/field.rs lines 116-155) on a non-negative exponent:
`n = 0 ↦ one`, `n = 1 ↦ self`, odd `n ↦ x^m · x^(m+1)` with `m = (n-1)/2`,
even `n ↦ x^m · x^m` with `m = n/2`.  The first argument is a structural
recursion-depth bound, kept equal to the exponent at every entry point; since
each recursive call strictly decreases an exponent that is at least `2`, the
`0, _` fallback is never reached from those entry points. -/
def powNat {α : Type} (mulF : α → α → α) (oneF : α) (x : α) : Nat → Nat → α
  | _, 0 => oneF
  | _, 1 => x
  | 0, _ => oneF
  | (f + 1), n =>
    if n % 2 = 1 then
      mulF (powNat mulF oneF x f ((n - 1) / 2)) (powNat mulF oneF x f ((n - 1) / 2 + 1))
    else
      mulF (powNat mulF oneF x f (n / 2)) (powNat mulF oneF x f (n / 2))

namespace PrimeField

/-- `PrimeField::zero` (src/field.rs): `Integer::new()`, i.e. `0`. -/
def zeroE : Int := 0

/-- `PrimeField::one` (src/field.rs): `Integer::from(1)`. -/
def oneE : Int := 1

/-- `PrimeField::is_zero` (src/field.rs): structural equality of the stored
`Integer` with `0`. -/
def is_zero (x : Int) : Bool := x == 0

/-- `PrimeField::add` (src/field.rs line 95): `(x + y) % P` with rug's
truncated remainder. -/
def add (P x y : Int) : Int := (x + y).tmod P

/-- `PrimeField::mul` (src/field.rs line 102): `(x * y) % P`. -/
def mul (P x y : Int) : Int := (x * y).tmod P

/-- `PrimeField::zmul` (src/field.rs line 109): `(x * k) % P`. -/
def zmul (P x : Int) (k : Int) : Int := (x * k).tmod P

/-- `PrimeField::neg` (src/field.rs line 226): `Integer::from(-&self.value)` —
note: no reduction mod `P` is performed by the source. -/
def neg (x : Int) : Int := -x

/-- `PrimeField::square` (src/field.rs line 163): `self * self`. -/
def square (P x : Int) : Int := mul P x x

/-- The value computed by `PrimeField::invert` on a non-zero input
(src/field.rs line 216): `self.zpow(P - 2)`, which for a non-zero receiver is
the square-and-multiply power `x^(P-2)` reduced step-by-step. -/
def invertVal (P x : Int) : Int := powNat (mul P) 1 x (P - 2).toNat (P - 2).toNat

/-- `PrimeField::zpow` (src/field.rs line 136): returns `zero` when the
receiver `is_zero`; for negative exponents inverts first (the `unwrap` is
valid because the receiver is non-zero); otherwise the square-and-multiply
recursion. -/
def zpow (P x : Int) (y : Int) : Int :=
  if x = 0 then 0
  else if y < 0 then powNat (mul P) 1 (invertVal P x) (-y).toNat (-y).toNat
  else powNat (mul P) 1 x y.toNat y.toNat

/-- `PrimeField::invert` (src/field.rs line 216): `NoInverse` on zero, else
`self.zpow(P - 2)`. -/
def invertE (P x : Int) : Except ErrorKind Int :=
  if x = 0 then .error .NoInverse else .ok (zpow P x (P - 2))

/-- `PrimeField::div` (src/field.rs line 158): `y.invert().map(|i| x * i)`. -/
def divE (P x y : Int) : Except ErrorKind Int :=
  (invertE P y).map (fun i => mul P x i)

/-- The recursion of `PrimeField::pow` (src/field.rs lines 116-134) on an
arbitrary `Integer` exponent: `y = 0 ↦ one`, `y = 1 ↦ self`, otherwise
recurse on `n = y / 2` (truncated division), with the odd-exponent variant
(`y.is_odd()`) using `n` and `n + 1`.  The first argument is a structural
recursion-depth bound; `pow` below enters with bound `|y| + 1`, which the
halving recursion never exhausts, so the bound-0 fallback (which repeats the
two base cases) is unreachable. -/
def powIntAux (P x : Int) : Nat → Int → Int
  | 0, y => if y = 0 then 1 else if y = 1 then x else x
  | (f + 1), y =>
    if y = 0 then 1
    else if y = 1 then x
    else
      let n := y.tdiv 2
      if y.tmod 2 ≠ 0 then mul P (powIntAux P x f n) (powIntAux P x f (n + 1))
      else mul P (powIntAux P x f n) (powIntAux P x f n)

/-- `PrimeField::pow` (src/field.rs line 116). -/
def pow (P x y : Int) : Int := powIntAux P x (y.natAbs + 1) y

/-- GMP's Legendre symbol (`rug::Integer::legendre`), the external bignum
collaborator called by `PrimeField::is_square`; for an odd prime modulus it is
Euler's criterion `a^((p-1)/2) mod p`, mapped onto `{1, 0, -1}`. -/
def legendreSym (a p : Int) : Int :=
  let e := (a ^ ((p - 1) / 2).toNat).emod p
  if e = 1 then 1 else if e = 0 then 0 else -1

/-- `PrimeField::is_square` (src/field.rs line 210): Legendre symbol of the
stored value with respect to `P` equals `1` (`Integer::from_f32(P as f32)` is
exact for the moduli considered here). -/
def is_square (P x : Int) : Bool := legendreSym x P == 1

/-- `PrimeField::random_element` (src/field.rs line 248) draws a uniform
integer below `P`; every draw in this development is read off an oracle
`zs : Nat → Int` at the next unused index, so the oracle value itself is the
sampled `value`. -/
def random_element (zs : Nat → Int) (idx : Nat) : Int := zs idx

/-- The `while q % 2 == 0` loop of `PrimeField::sqrt` (src/field.rs lines
180-183), which splits `q` into an odd part and a power of two.  The first
argument is a structural bound on the number of halvings (`q.natAbs` always
suffices); the source loop does not terminate when `q = 0` (possible only for
`P = 1`), in which case this returns after exhausting the bound. -/
def split2Aux : Nat → Int → Int × Nat
  | 0, q => (q, 0)
  | (b + 1), q =>
    if q ≠ 0 ∧ q.tmod 2 = 0 then
      let p := split2Aux b (q.tdiv 2)
      (p.1, p.2 + 1)
    else (q, 0)

/-- Split `q = Q · 2^S` with `Q` odd, as the source loop does for `q ≠ 0`. -/
def split2 (q : Int) : Int × Nat := split2Aux q.natAbs q

/-- The non-residue search loop of `PrimeField::sqrt` (src/field.rs lines
185-188): `while z.zpow(q / 2) == one { z = z.random_element() }`.  `z` starts
at `one`; fresh draws come from the oracle `zs`.  `none` means the metered
fuel was exhausted before the loop exited. -/
def zSearch (P qh : Int) (zs : Nat → Int) : Int → Nat → Nat → Option Int
  | z, _idx, 0 => if zpow P z qh = 1 then none else some z
  | z, idx, fuel + 1 =>
    if zpow P z qh = 1 then zSearch P qh zs (random_element zs idx) (idx + 1) fuel
    else some z

/-- The main Tonelli–Shanks loop of `PrimeField::sqrt` (src/field.rs lines
193-201): `while t != one && t != zero` with body
`b = c.zpow(2 ^ (m - i - 1)); m = i; c = b.square(); t = t.mul(&c);
r = r.mul(&b); i += 1`.  Note `2 ^ (m - i - 1)` in Rust is the bitwise XOR
`2 ^^^ (m - i - 1)` on `i64`, embedded by `Int.xor` (two's complement), not a
power.  State is `(m, c, t, r, i)`; returns the final `(t, r)`. -/
def sqrtLoop (P : Int) (q : Int) : Int → Int → Int → Int → Int → Nat → Option (Int × Int)
  | _m, _c, t, r, _i, 0 => if t ≠ 1 ∧ t ≠ 0 then none else some (t, r)
  | m, c, t, r, i, fuel + 1 =>
    if t ≠ 1 ∧ t ≠ 0 then
      let b := zpow P c (Int.xor 2 (m - i - 1))
      let c' := square P b
      sqrtLoop P q i c' (mul P t c') (mul P r b) (i + 1) fuel
    else some (t, r)

/-- `PrimeField::sqrt` (src/field.rs lines 168-208).  `q` starts at `P - 1`;
the Euler pre-check `self.zpow(q / 2) != one` returns `NonQuadraticResidue`
(note this also rejects `x = 0`, because `zpow` of a zero receiver is `zero`);
then `q` is split into `Q · 2^S`, a non-residue candidate `z` is searched
starting from `one` using the random oracle `zs`, and the main loop runs.  On
exit the source returns `Ok(self.zero())` when `t` is zero and `Ok(r.zero())`
otherwise — both of which are the zero element (`r` itself is discarded). -/
def sqrt (P x : Int) (zs : Nat → Int) (fuel : Nat) : Option (Except ErrorKind Int) :=
  let q0 := P - 1
  if zpow P x (q0.tdiv 2) ≠ 1 then some (.error .NonQuadraticResidue)
  else
    let qs := split2 q0
    let q := qs.1
    let s := qs.2
    match zSearch P (q.tdiv 2) zs 1 0 fuel with
    | none => none
    | some z =>
      let c := zpow P z q
      let t := zpow P x q
      let r := zpow P x ((q + 1).tdiv 2)
      match sqrtLoop P q (Int.ofNat s) c t r 0 fuel with
      | none => none
      | some (tFinal, _rFinal) =>
        if is_zero tFinal then some (.ok zeroE)
        else some (.ok zeroE)

end PrimeField

/-- `FiniteField<P, N>` (src/field.rs lines 70-74): a coefficient vector of
`PrimeField<P>` values (each embedded as its integer value) together with the
shared reduction polynomial. -/
structure FiniteField where
  coords : List Int
  polynomial : List Int
  deriving DecidableEq, Repr

namespace FiniteField

/-- `FiniteField::zero` (src/field.rs line 256): `coords: Default::default()`
— the `Vec` default, i.e. the EMPTY vector — with the receiver's
polynomial. -/
def zero (x : FiniteField) : FiniteField := ⟨[], x.polynomial⟩

/-- `FiniteField::one` (src/field.rs line 264): `vec![default; N]` with slot
`0` set to `1`. -/
def one (N : Nat) (x : FiniteField) : FiniteField :=
  ⟨(List.replicate N 0).set 0 1, x.polynomial⟩

/-- `FiniteField::is_zero` (src/field.rs line 278): structural equality with
`self.zero()`. -/
def is_zero (x : FiniteField) : Bool := x == zero x

/-- `FiniteField::neg` (src/field.rs line 442): apply `PrimeField::neg` to the
first `N` coordinates in place (`iter_mut().take(N)`). -/
def neg (N : Nat) (x : FiniteField) : FiniteField :=
  ⟨x.coords.mapIdx (fun i v => if i < N then PrimeField.neg v else v), x.polynomial⟩

/-- `FiniteField::zmul` (src/field.rs line 333): apply `PrimeField::zmul` to
the first `N` coordinates in place. -/
def zmul (P : Int) (N : Nat) (x : FiniteField) (k : Int) : FiniteField :=
  ⟨x.coords.mapIdx (fun i v => if i < N then PrimeField.zmul P v k else v), x.polynomial⟩

/-- `FiniteField::add` (src/field.rs line 282): for `i in 0..N`,
`x[i] = x[i].add(&v[i])`; the vector index panics (here: `none`) when either
coordinate vector is shorter than `N`. -/
def add (P : Int) (N : Nat) (x y : FiniteField) : Option FiniteField :=
  if N ≤ x.coords.length ∧ N ≤ y.coords.length then
    some ⟨(List.range x.coords.length).map
            (fun i => if i < N then PrimeField.add P (x.coords.getD i 0) (y.coords.getD i 0)
                      else x.coords.getD i 0),
          x.polynomial⟩
  else none

end FiniteField

/-- The capability set of the `Field` trait (src/field.rs lines 5-58) that the
generic curve and pairing code relies on.  `div` is derived below exactly as
both trait impls define it. -/
structure FOps (F : Type) where
  zero : F
  one : F
  add : F → F → F
  neg : F → F
  mul : F → F → F
  zmul : F → Int → F
  square : F → F
  zpow : F → Int → F
  pow : F → Int → F
  invert : F → Except ErrorKind F
  base_order : Int

/-- `Field::div` (src/field.rs lines 158 and 438):
`y.invert().map(|i| self.mul(i))`. -/
def FOps.div {F : Type} (ops : FOps F) (x y : F) : Except ErrorKind F :=
  (ops.invert y).map (fun i => ops.mul x i)

/-- Unwrapped division.  Several call sites in src/elliptic_curve.rs and
src/pairings.rs use the `Result` of `div` directly as a field value (e.g.
`num.div(&denom)` then `.mul(&slope)`); on every path exercised by the
theorems below the divisor is non-zero.  The error case is mapped to `zero`
only to make the embedding total. -/
def FOps.divU {F : Type} (ops : FOps F) (x y : F) : F :=
  match ops.div x y with
  | .ok v => v
  | .error _ => ops.zero

/-- Unwrapped field inversion, in the same sense as `FOps.divU` (used where
the source writes `....invert()` and keeps using the `Result` as a value). -/
def FOps.invertU {F : Type} (ops : FOps F) (x : F) : F :=
  match ops.invert x with
  | .ok v => v
  | .error _ => ops.zero

/-- The `Field` impl of `PrimeField<P>` (src/field.rs lines 76-252) as an
operation record over the carrier `Int`. -/
def pfOps (P : Int) : FOps Int where
  zero := PrimeField.zeroE
  one := PrimeField.oneE
  add := PrimeField.add P
  neg := PrimeField.neg
  mul := PrimeField.mul P
  zmul := PrimeField.zmul P
  square := PrimeField.square P
  zpow := PrimeField.zpow P
  pow := PrimeField.pow P
  invert := PrimeField.invertE P
  base_order := P

/-- `EllipticCurve<F>` (src/elliptic_curve.rs lines 4-7): the array of six
long-Weierstrass coefficients `[a1, a2, a3, a4, a5, a6]`;
`get_a_invariants` destructures it as `(a[0], a[1], a[2], a[3], a[5])`,
skipping the unused `a5 = a[4]`. -/
structure EllipticCurve (F : Type) where
  a1 : F
  a2 : F
  a3 : F
  a4 : F
  a5 : F
  a6 : F
  deriving DecidableEq, Repr

/-- `ECPoint<F>` (src/elliptic_curve.rs lines 16-20): either a
`RationalPoint` — which in the source carries its curve and its affine
coordinate pair — or the point at infinity, which carries its curve.
(src/pairings.rs spells the infinity variant `ECPoint::PointAtInfinity`;
src/elliptic_curve.rs declares it as `INFPOINT`.) -/
inductive ECPoint (F : Type) where
  | RATIONALPOINT : EllipticCurve F → F × F → ECPoint F
  | INFPOINT : EllipticCurve F → ECPoint F
  deriving DecidableEq, Repr

/-- `EllipticCurve::infinity_point` (src/elliptic_curve.rs line 67). -/
def EllipticCurve.infinity_point {F : Type} (c : EllipticCurve F) : ECPoint F :=
  ECPoint.INFPOINT c

namespace ECPoint

/-- `ECPoint::is_zero` (src/elliptic_curve.rs line 88): true exactly on the
point at infinity. -/
def is_zero {F : Type} : ECPoint F → Bool
  | .INFPOINT _ => true
  | .RATIONALPOINT _ _ => false

/-- `ECPoint::line` (src/elliptic_curve.rs lines 102-175): the line through
`self` and `pt_q` evaluated at `pt_r`.  Fails with the source's `&'static
str` error when `pt_r` is the point at infinity.  In the `x_P ≠ x_Q` branch
the source computes the slope numerator as `y_q.add(&x_p.clone().neg())`,
i.e. `y_Q - x_P`. -/
def line {F : Type} [DecidableEq F] (ops : FOps F) (pt_self pt_q pt_r : ECPoint F) :
    Except ErrorKind F :=
  match pt_r with
  | .INFPOINT _ => .error (.StaticStr "R cannot be the point at infinity")
  | .RATIONALPOINT _cr (x_r, y_r) =>
    match pt_self, pt_q with
    | .INFPOINT _, .INFPOINT _ => .ok ops.one
    | .INFPOINT _, .RATIONALPOINT _ (x_q, _) => .ok (ops.add x_r (ops.neg x_q))
    | .RATIONALPOINT _ (x_p, _), .INFPOINT _ => .ok (ops.add x_r (ops.neg x_p))
    | .RATIONALPOINT cp (x_p, y_p), .RATIONALPOINT cq (x_q, y_q) =>
      if (cp, (x_p, y_p)) ≠ (cq, (x_q, y_q)) then
        if x_p = x_q then .ok (ops.add x_r (ops.neg x_p))
        else
          let num := ops.add y_q (ops.neg x_p)
          let denom := ops.add x_q (ops.neg x_p)
          let slope := ops.divU num denom
          let xdiff := ops.neg (ops.mul (ops.add x_r (ops.neg x_p)) slope)
          let ydiff := ops.add y_r (ops.neg y_p)
          .ok (ops.add xdiff ydiff)
      else
        let num := ops.add (ops.add (ops.add (ops.zmul (ops.square x_p) 3)
                     (ops.neg (ops.mul y_p cp.a1))) cp.a4)
                     (ops.zmul (ops.mul x_p cp.a2) 2)
        let denom := ops.add (ops.add (ops.zmul y_p 2) cp.a3) (ops.mul x_p cp.a1)
        if denom = ops.zero then .ok (ops.add x_r (ops.neg x_p))
        else
          let slope := ops.divU num denom
          let xdiff := ops.neg (ops.mul (ops.add x_r (ops.neg x_p)) slope)
          let ydiff := ops.add y_r (ops.neg y_p)
          .ok (ops.add ydiff xdiff)

/-- `ECPoint::add` (src/elliptic_curve.rs lines 178-244): the long-Weierstrass
chord-tangent addition, with the two `div` results used directly as field
values (`FOps.divU`). -/
def add {F : Type} [DecidableEq F] (ops : FOps F) (pt_self pt_q : ECPoint F) : ECPoint F :=
  match pt_self with
  | .INFPOINT _ => pt_q
  | .RATIONALPOINT c (x_p, y_p) =>
    match pt_q with
    | .INFPOINT _ => pt_self
    | .RATIONALPOINT _cq (x_q, y_q) =>
      if x_p = x_q ∧ ops.add (ops.add (ops.add y_p y_q) (ops.mul c.a1 x_q)) c.a3 = ops.zero
      then c.infinity_point
      else
        let lambda :=
          if x_p = x_q then
            ops.divU (ops.add (ops.add (ops.add c.a4 (ops.zmul (ops.square x_p) 3))
                       (ops.zmul (ops.mul c.a2 x_p) 2)) (ops.neg (ops.mul c.a1 y_p)))
                     (ops.add (ops.add c.a3 (ops.zmul y_p 2)) (ops.mul c.a1 x_p))
          else
            ops.divU (ops.add y_q (ops.neg y_p)) (ops.add x_q (ops.neg x_p))
        let nu :=
          if x_p = x_q then
            ops.divU (ops.add (ops.add (ops.add (ops.neg (ops.mul (ops.square x_p) x_p))
                       (ops.mul c.a4 x_p)) (ops.zmul c.a6 2)) (ops.neg (ops.mul c.a3 y_p)))
                     (ops.add (ops.add c.a3 (ops.zmul y_p 2)) (ops.mul c.a1 x_p))
          else
            ops.divU (ops.add (ops.mul y_p x_q) (ops.neg (ops.mul y_q x_p)))
                     (ops.add x_q (ops.neg x_p))
        let x := ops.add (ops.add (ops.add (ops.neg c.a2) (ops.neg (ops.add x_p x_q)))
                   (ops.square lambda)) (ops.mul c.a1 lambda)
        let y := ops.neg (ops.add (ops.add c.a3 nu) (ops.mul x (ops.add lambda c.a1)))
        .RATIONALPOINT c (x, y)

/-- `ECPoint::double` (src/elliptic_curve.rs lines 247-289).  The slope
numerator starts with `a1.clone().zmul(&3)`, i.e. `3·a1` (not `3·x_P²`), and
the tangent denominator's inverse (`.invert()`) is used directly as a field
value (`FOps.invertU`). -/
def double {F : Type} [DecidableEq F] (ops : FOps F) (pt_self : ECPoint F) : ECPoint F :=
  match pt_self with
  | .INFPOINT _ => pt_self
  | .RATIONALPOINT c (x_p, y_p) =>
    let lambda := ops.mul
      (ops.add (ops.add (ops.add (ops.zmul c.a1 3) (ops.zmul (ops.mul x_p c.a2) 2))
        (ops.neg (ops.mul y_p c.a1))) c.a4)
      (ops.invertU (ops.add (ops.add (ops.zmul y_p 2) (ops.mul x_p c.a1)) c.a3))
    let res_x := ops.add (ops.add (ops.add (ops.square lambda) (ops.mul c.a1 lambda))
      (ops.neg c.a2)) (ops.neg (ops.zmul x_p 2))
    let res_y := ops.add (ops.add (ops.add (ops.add (ops.neg (ops.mul res_x c.a1))
      (ops.neg c.a3)) (ops.mul res_x lambda)) (ops.mul x_p lambda)) (ops.neg y_p)
    .RATIONALPOINT c (res_x, res_y)

/-- `ECPoint::invert` (src/elliptic_curve.rs lines 293-306): fails with the
source's `&'static str` error on the point at infinity, else
`(x, -(a3 + a1·x + y))`. -/
def invert {F : Type} (ops : FOps F) (pt_self : ECPoint F) :
    Except ErrorKind (ECPoint F) :=
  match pt_self with
  | .INFPOINT _ => .error (.StaticStr "P must not be zero")
  | .RATIONALPOINT c (x, y) =>
    .ok (.RATIONALPOINT c (x, ops.neg (ops.add (ops.add c.a3 (ops.mul c.a1 x)) y)))

end ECPoint

/-- Outcome of one `random_point` run: the source's `todo!()` on a sqrt
failure is a panic, and `diverge` records that the metered square-root loop
fuel ran out. -/
inductive RunRes (α : Type) where
  | ok : α → RunRes α
  | panic : RunRes α
  | diverge : RunRes α
  deriving DecidableEq, Repr

/-- `EllipticCurve::random_point` (src/elliptic_curve.rs lines 33-65): with
the uniform draw `rand_x` supplied by the RNG collaborator and the field
square root supplied as `sqrtF`, solve for `y` via the quadratic formula.  A
`sqrt` failure hits the source's `Err(_) => todo!()` arm, i.e. panics. -/
def EllipticCurve.random_point {F : Type} [DecidableEq F] (ops : FOps F)
    (c : EllipticCurve F) (sqrtF : F → Option (Except ErrorKind F)) (rand_x : F) :
    RunRes (ECPoint F) :=
  let b := ops.add (ops.mul rand_x c.a1) c.a3
  let cval := ops.neg (ops.add (ops.add (ops.add (ops.zpow rand_x 3)
    (ops.mul (ops.square rand_x) c.a2)) (ops.mul rand_x c.a4)) c.a6)
  let half := ops.invertU (ops.zmul ops.one 2)
  let delta := ops.add (ops.square b) (ops.neg (ops.zmul cval 4))
  match sqrtF delta with
  | none => .diverge
  | some (.error _) => .panic
  | some (.ok sq) =>
    let rand_y := ops.mul half (ops.add (ops.neg b) sq)
    .ok (.RATIONALPOINT c (rand_x, rand_y))

/-- Modelled from the spec: `Integer::to_bits`, the bignum collaborator's bit
decomposition.  It is declared by `IntegerExt` (src/pairings.rs line 15) and
`BigInt` (src/bigint.rs line 55) but left `unimplemented!()` under src; the
spec (§1, §3) lists bit decomposition among the operations the external
bignum supplies: the least-significant-first binary expansion of `|x|`,
canonical (no trailing `false` bits). -/
def Integer.to_bitsAux : Nat → Nat → List Bool
  | _, 0 => []
  | 0, _ => []
  | (f + 1), (n + 1) => (decide ((n + 1) % 2 = 1)) :: Integer.to_bitsAux f ((n + 1) / 2)

/-- The bit decomposition entered with a sufficient structural depth bound
(the `0, n+1` fallback of the auxiliary recursion is unreachable from here,
since `(n+1)/2 ≤ n`). -/
def Integer.to_bits (n : Nat) : List Bool := Integer.to_bitsAux n n

/-- Modelled from the spec: `Integer::large_pow` (src/pairings.rs line 28),
the bignum collaborator's integer power, `unimplemented!()` under src; the
spec (§3, §4.5) requires the integer power `q^k` with `k ≥ 1` the embedding
degree. -/
def Integer.large_pow (q k : Int) : Int := q ^ k.toNat

/-- One iteration of the Miller loop body (src/pairings.rs lines 72-91): the
unconditional double step, then the add step when the current bit is set.
`ell.div(&vee)` is a `Result` used directly as a field value (`FOps.divU`). -/
def millerStep {F : Type} [DecidableEq F] (ops : FOps F) (pt_p pt_q : ECPoint F)
    (bit : Bool) (t : F) (pt_v : ECPoint F) : Except ErrorKind (F × ECPoint F) := do
  let pt_s := ECPoint.double ops pt_v
  let ell ← ECPoint.line ops pt_v pt_v pt_q
  let inv_s ← ECPoint.invert ops pt_s
  let vee ← ECPoint.line ops pt_s inv_s pt_q
  let t1 := ops.mul (ops.square t) (ops.divU ell vee)
  if bit then
    let pt_s2 := ECPoint.add ops pt_s pt_p
    let ell2 ← ECPoint.line ops pt_s pt_p pt_q
    let inv_s2 ← ECPoint.invert ops pt_s2
    let vee2 ← ECPoint.line ops pt_s2 inv_s2 pt_q
    pure (ops.mul t1 (ops.divU ell2 vee2), pt_s2)
  else
    pure (t1, pt_s)

/-- The Miller loop (src/pairings.rs lines 72-91), iterating the step at bit
index `i` and then decrementing down to bit `0`. -/
def millerLoop {F : Type} [DecidableEq F] (ops : FOps F) (pt_p pt_q : ECPoint F)
    (nbits : List Bool) : Nat → F → ECPoint F → Except ErrorKind (F × ECPoint F)
  | 0, t, v => millerStep ops pt_p pt_q (nbits.getD 0 false) t v
  | (i + 1), t, v => do
    let tv ← millerStep ops pt_p pt_q (nbits.getD (i + 1) false) t v
    millerLoop ops pt_p pt_q nbits i tv.1 tv.2

/-- The post-loop negative-`n` correction of `miller` (src/pairings.rs lines
95-100): when `sign` is false, `t = t.mul(&vee).invert()` (the `Result` used
as the returned value, `FOps.invertU`). -/
def millerPost {F : Type} [DecidableEq F] (ops : FOps F) (pt_q : ECPoint F)
    (sign : Bool) (t : F) (pt_v : ECPoint F) : Except ErrorKind F :=
  if sign then .ok t
  else do
    let inv_v ← ECPoint.invert ops pt_v
    let vee ← ECPoint.line ops pt_v inv_v pt_q
    .ok (ops.invertU (ops.mul t vee))

/-- `miller` (src/pairings.rs lines 39-101): precondition checks, the `n = 0`
short-circuit, then the double-and-add loop over the bits of `|n|` (skipped
entirely when `|n|` has a single bit), then the sign correction. -/
def miller {F : Type} [DecidableEq F] (ops : FOps F) (_curve : EllipticCurve F)
    (pt_p pt_q : ECPoint F) (n : Int) : Except ErrorKind F :=
  if pt_p.is_zero then .error (.InvalidInput "P must not be zero")
  else if pt_q.is_zero then .error (.InvalidInput "Q must not be zero")
  else if n = 0 then .ok ops.one
  else
    let sign : Bool := n > 0
    let nbits := Integer.to_bits n.natAbs
    let i0 := nbits.length - 1
    if i0 ≠ 0 then
      match millerLoop ops pt_p pt_q nbits (i0 - 1) ops.one pt_p with
      | .error e => .error e
      | .ok (t, pt_v) => millerPost ops pt_q sign t pt_v
    else millerPost ops pt_q sign ops.one pt_p

/-- Outcome of a fueled `tate_pairing` run: `ok` carries the returned field
value and the index of the next unused random-point draw; `error` would
propagate a `?` failure of a recursive call (the function never constructs an
error itself); `panic` and `diverge` record a panic, respectively fuel
exhaustion (the recursion has not terminated within the metered bound). -/
inductive TateRes (F : Type) where
  | ok : F → Nat → TateRes F
  | error : ErrorKind → TateRes F
  | panic : TateRes F
  | diverge : TateRes F
  deriving DecidableEq, Repr

/-- `tate_pairing` (src/pairings.rs lines 138-168): try `miller`; on success
raise the result to `e = (q^k - 1) / order`; on ANY failure sample a random
point `R` (the `rnd` oracle yields the outcome of the `i`-th `random_point`
call) and recurse on `(P, Q + R)` and `(P, R)`, returning the quotient. -/
def tate_pairing {F : Type} [DecidableEq F] (ops : FOps F) (curve : EllipticCurve F) :
    Nat → ECPoint F → ECPoint F → Int → Int → (Nat → RunRes (ECPoint F)) → Nat → TateRes F
  | 0, _, _, _, _, _, _ => .diverge
  | (fuel + 1), pt_p, pt_q, order, embedding_degree, rnd, pos =>
    let q := ops.base_order
    match miller ops curve pt_p pt_q order with
    | .ok res =>
      let e := (Integer.large_pow q embedding_degree - 1).tdiv order
      .ok (ops.pow res e) pos
    | .error _ =>
      match rnd pos with
      | .panic => .panic
      | .diverge => .diverge
      | .ok pt_r =>
        match tate_pairing ops curve fuel pt_p (ECPoint.add ops pt_q pt_r)
            order embedding_degree rnd (pos + 1) with
        | .ok f_qr pos' =>
          match tate_pairing ops curve fuel pt_p pt_r order embedding_degree rnd pos' with
          | .ok f_r pos'' => .ok (ops.divU f_qr f_r) pos''
          | other => other
        | other => other

/-! ## Fixtures: concrete fields, curves and points used by the theorems -/

/-- The all-zero coefficient curve over `F_5`/`F_11` style carriers (the line
function's distinct-`x` branch and the pairing entry checks do not read any
coefficient). -/
def curveZero : EllipticCurve Int := ⟨0, 0, 0, 0, 0, 0⟩

/-- The spec's S2 curve `y² = x³ + x + 6` over `F_11`
(`a1 = a2 = a3 = 0, a4 = 1, a6 = 6`). -/
def curveS2 : EllipticCurve Int := ⟨0, 0, 0, 1, 0, 6⟩

/-- The S2 point `(2, 7)`. -/
def pointS2 : ECPoint Int := .RATIONALPOINT curveS2 (2, 7)

/-- Curve `y² = x³ + x + 1` over `F_5`; its discriminant value at `x = 1` is
`Δ = 2`, a quadratic non-residue mod 5. -/
def curveC9 : EllipticCurve Int := ⟨0, 0, 0, 1, 0, 1⟩

/-- Line-evaluation fixture `P = (0, 1)` over `F_5` on the zero curve. -/
def linePtP : ECPoint Int := .RATIONALPOINT curveZero (0, 1)

/-- Line-evaluation fixture `Q = (1, 3)`. -/
def linePtQ : ECPoint Int := .RATIONALPOINT curveZero (1, 3)

/-- Line-evaluation fixture `R = (2, 0)`. -/
def linePtR : ECPoint Int := .RATIONALPOINT curveZero (2, 0)

/-- A harmless affine base point used by the pairing witnesses. -/
def basePoint : ECPoint Int := .RATIONALPOINT curveZero (0, 0)

/-- A random-point oracle whose every draw succeeds and returns `basePoint`. -/
def rndOk : Nat → RunRes (ECPoint Int) := fun _ => .ok basePoint

/-- `true` exactly when an operation's result is the tagged
`ErrorKind::InvalidInput` failure. -/
def errIsInvalidInput {α : Type} : Except ErrorKind α → Bool
  | .error e => e.isInvalidInput
  | .ok _ => false

/-- Modelled from the spec (§4.3, line case 5), for comparison with
`ECPoint.line`: over the field `ZMod p`, given the slope `s` — characterised
by `s · (x_Q - x_P) = y_Q - y_P`, i.e. `s = (y_Q - y_P)/(x_Q - x_P)` — the
specified return value is `(y_R - y_P) - s·(x_R - x_P)`. -/
def lineSpecValue (p : Nat) (x_p y_p x_r y_r s : ZMod p) : ZMod p :=
  (y_r - y_p) - s * (x_r - x_p)

/-! ## Claim theorems -/

/-- C1: the claim says that for every field element `a` with
`is_square(a) = true`, `sqrt(a)` succeeds with a value whose square is `a`,
and that `sqrt(0) = 0` without entering the loop.  The code refutes both
parts: both success exits of `PrimeField::sqrt` return a zero element
(`Ok(self.zero())` and `Ok(r.zero())` — the computed root `r` is discarded),
so for the square `4 ∈ F_13` (non-residue candidate drawn: `2`) the function
returns `Ok(0)` with `0² = 0 ≠ 4`; and `sqrt(0)` fails with
`NonQuadraticResidue` because `zpow` of a zero receiver returns `zero ≠ one`
at the Euler pre-check. -/
theorem c1_sqrt_discards_root :
    PrimeField.is_square 13 4 = true
    ∧ PrimeField.sqrt 13 4 (fun _ => 2) 10 = some (.ok 0)
    ∧ PrimeField.square 13 0 ≠ 4
    ∧ (∀ zs : Nat → Int, ∀ fuel : Nat,
        PrimeField.sqrt 5 0 zs fuel = some (.error .NonQuadraticResidue)) := by
  refine ⟨by decide, by rfl, by decide, fun zs fuel => ?_⟩
  rfl

/-- C2: the claim says `line(P, Q, R)` with `x_P ≠ x_Q` returns
`(y_R - y_P) - s·(x_R - x_P)` with `s = (y_Q - y_P)/(x_Q - x_P)`.  The code
computes the slope numerator as `y_q.add(&x_p.clone().neg())`, i.e.
`y_Q - x_P`.  Over `F_5` with `P = (0,1)`, `Q = (1,3)`, `R = (2,0)`: the code
returns `-2 ≡ 3 (mod 5)`, while the specified slope is `s = 2` (indeed
`2·(x_Q - x_P) = y_Q - y_P`) and the specified value is `0`. -/
theorem c2_line_slope_numerator_bug :
    ECPoint.line (pfOps 5) linePtP linePtQ linePtR = .ok (-2)
    ∧ (2 : ZMod 5) * ((1 : ZMod 5) - 0) = (3 : ZMod 5) - 1
    ∧ lineSpecValue 5 0 1 2 0 2 = 0
    ∧ (((-2 : Int) : ZMod 5)) ≠ lineSpecValue 5 0 1 2 0 2 := by
  refine ⟨by rfl, by decide, by decide, by decide⟩

/-- C3: the claim says `double(P)` equals `add(P, P)` whenever the tangent
denominator `2y_P + a1·x_P + a3` is non-zero.  On the S2 curve
`y² = x³ + x + 6` over `F_11` with `P = (2,7)` the denominator is `3 ≠ 0`,
`add(P, P)` returns `(5, 2)` (the textbook value), but `double(P)` returns
`(1, -6)` — its slope numerator starts with `3·a1` instead of `3·x_P²` — and
the two x-coordinates `5` and `1` differ mod 11. -/
theorem c3_double_disagrees_with_add :
    PrimeField.add 11 (PrimeField.add 11 (PrimeField.zmul 11 7 2)
      (PrimeField.mul 11 2 0)) 0 = 3
    ∧ ECPoint.add (pfOps 11) pointS2 pointS2 = .RATIONALPOINT curveS2 (5, 2)
    ∧ ECPoint.double (pfOps 11) pointS2 = .RATIONALPOINT curveS2 (1, -6)
    ∧ ECPoint.add (pfOps 11) pointS2 pointS2 ≠ ECPoint.double (pfOps 11) pointS2
    ∧ ((5 : Int) : ZMod 11) ≠ ((1 : Int) : ZMod 11) := by
  refine ⟨by decide, by decide, by decide, by decide, by decide⟩

/-- C6: the claim says every `PrimeField` result is reduced into `[0, P)` and
in particular `neg(x) = (P - x) mod P`.  The code's `neg` is
`Integer::from(-&self.value)` with no reduction: over `F_5`, `neg(1) = -1`,
which is not in `[0, 5)` and differs from the claimed `(5 - 1) mod 5 = 4`. -/
theorem c6_neg_not_reduced :
    PrimeField.neg 1 = -1
    ∧ ¬ (0 ≤ PrimeField.neg 1 ∧ PrimeField.neg 1 < 5)
    ∧ ((5 : Int) - 1).tmod 5 = 4
    ∧ PrimeField.neg 1 ≠ ((5 : Int) - 1).tmod 5 := by
  refine ⟨by decide, by decide, by decide, by decide⟩

/-- C7: the claim says every `FiniteField<P, N>` value produced by the public
operations has a coefficient vector of length exactly `N`, with structural
equality (hence `is_zero`) consistent with it.  `FiniteField::zero` builds its
coordinates with `Default::default()` — the empty vector — so for `N = 2` the
zero element has length `0`, while `one` has length `2`; consequently the
genuine length-2 zero vector `[0, 0]` is not `is_zero` (structural equality
against the empty-vector zero fails). -/
theorem c7_ff_zero_has_empty_coords :
    (FiniteField.zero ⟨[4, 4], [2, 3]⟩).coords.length = 0
    ∧ (FiniteField.one 2 ⟨[4, 4], [2, 3]⟩).coords.length = 2
    ∧ (0 : Nat) ≠ 2
    ∧ FiniteField.is_zero ⟨[0, 0], [2, 3]⟩ = false := by
  refine ⟨by decide, by decide, by decide, by decide⟩

/-- C4: for every curve and non-infinity points `P, Q`, `miller` returns the
field's `1` when `n = 0` (explicit short-circuit) and when `n = 1` (the bit
list of `|1|` has a single bit, so the Miller loop body is skipped and the
accumulator is still `one`). -/
theorem c4_miller_trivial_exponents {F : Type} [DecidableEq F] (ops : FOps F)
    (curve : EllipticCurve F) (P Q : ECPoint F)
    (hP : P.is_zero = false) (hQ : Q.is_zero = false) :
    miller ops curve P Q 0 = .ok ops.one ∧ miller ops curve P Q 1 = .ok ops.one := by
  cases P with
  | INFPOINT c => exact absurd hP (by simp [ECPoint.is_zero])
  | RATIONALPOINT c xy =>
    cases Q with
    | INFPOINT c2 => exact absurd hQ (by simp [ECPoint.is_zero])
    | RATIONALPOINT c2 xy2 => exact ⟨rfl, rfl⟩

/-- Witness for C4 at a concrete instance: `F_5`, both points `(0, 0)` on the
zero-coefficient curve. -/
theorem c4_miller_trivial_exponents_witness :
    miller (pfOps 5) curveZero basePoint basePoint 0 = .ok (pfOps 5).one
    ∧ miller (pfOps 5) curveZero basePoint basePoint 1 = .ok (pfOps 5).one :=
  c4_miller_trivial_exponents (pfOps 5) curveZero basePoint basePoint rfl rfl

/-- C5: whenever the direct `miller` call succeeds with `m`, `tate_pairing`
returns `m^e` with `e = (q^k - 1)/n` (`q` the base-field order, truncated
integer division), consuming no random draws and surfacing no failure. -/
theorem c5_tate_success_path {F : Type} [DecidableEq F] (ops : FOps F)
    (curve : EllipticCurve F) (P Q : ECPoint F) (order k : Int)
    (rnd : Nat → RunRes (ECPoint F)) (pos fuel : Nat) (m : F)
    (h : miller ops curve P Q order = .ok m) :
    tate_pairing ops curve (fuel + 1) P Q order k rnd pos
      = .ok (ops.pow m ((Integer.large_pow ops.base_order k - 1).tdiv order)) pos := by
  simp only [tate_pairing, h]

/-- Witness for C5: `F_5`, `n = 1`, `k = 1`, so `miller = 1` and
`e = (5 - 1)/1 = 4`. -/
theorem c5_tate_success_path_witness :
    tate_pairing (pfOps 5) curveZero 1 basePoint basePoint 1 1 rndOk 0
      = .ok ((pfOps 5).pow 1 ((Integer.large_pow (pfOps 5).base_order 1 - 1).tdiv 1)) 0 :=
  c5_tate_success_path (pfOps 5) curveZero basePoint basePoint 1 1 rndOk 0 0 1 rfl

/-- C8 (amended): `miller` called with `P = Infinity` or `Q = Infinity`
returns the tagged `ErrorKind::InvalidInput` with the documented reason,
while `line` called with `R = Infinity` and curve-point `invert` called on
`Infinity` also fail on their documented preconditions — but with the plain
`&'static str` errors of src/elliptic_curve.rs, not the `InvalidInput`
variant. -/
theorem c8_error_tags {F : Type} [DecidableEq F] (ops : FOps F)
    (curve : EllipticCurve F) (P Q : ECPoint F) (n : Int)
    (hP : P.is_zero = false) :
    miller ops curve (.INFPOINT curve) Q n = .error (.InvalidInput "P must not be zero")
    ∧ miller ops curve P (.INFPOINT curve) n = .error (.InvalidInput "Q must not be zero")
    ∧ ECPoint.line ops P Q (.INFPOINT curve)
        = .error (.StaticStr "R cannot be the point at infinity")
    ∧ ECPoint.invert ops (ECPoint.INFPOINT curve : ECPoint F)
        = .error (.StaticStr "P must not be zero") := by
  cases P with
  | INFPOINT c => exact absurd hP (by simp [ECPoint.is_zero])
  | RATIONALPOINT c xy => exact ⟨rfl, rfl, rfl, rfl⟩

/-- Witness for C8 at a concrete instance. -/
theorem c8_error_tags_witness :
    miller (pfOps 5) curveZero (.INFPOINT curveZero) basePoint 3
        = .error (.InvalidInput "P must not be zero")
    ∧ miller (pfOps 5) curveZero basePoint (.INFPOINT curveZero) 3
        = .error (.InvalidInput "Q must not be zero")
    ∧ ECPoint.line (pfOps 5) basePoint basePoint (.INFPOINT curveZero)
        = .error (.StaticStr "R cannot be the point at infinity")
    ∧ ECPoint.invert (pfOps 5) (ECPoint.INFPOINT curveZero : ECPoint Int)
        = .error (.StaticStr "P must not be zero") :=
  c8_error_tags (pfOps 5) curveZero basePoint basePoint 3 rfl

/-- C8 counterexample to the claim as stated: the errors returned by the
point-inversion and line preconditions are not the tagged
`ErrorKind::InvalidInput` — in the source they are plain `&'static str`
values (embedded as `StaticStr`). -/
theorem c8_not_invalid_input_counterexample :
    ECPoint.invert (pfOps 5) (ECPoint.INFPOINT curveZero : ECPoint Int)
        = .error (.StaticStr "P must not be zero")
    ∧ errIsInvalidInput
        (ECPoint.invert (pfOps 5) (ECPoint.INFPOINT curveZero : ECPoint Int)) = false
    ∧ ECPoint.line (pfOps 5) basePoint basePoint (.INFPOINT curveZero)
        = .error (.StaticStr "R cannot be the point at infinity")
    ∧ errIsInvalidInput
        (ECPoint.line (pfOps 5) basePoint basePoint (.INFPOINT curveZero)) = false :=
  ⟨rfl, rfl, rfl, rfl⟩

/-- C9: the claim says `random_point` resamples `x` when the discriminant has
no square root and never panics on a data path.  On the curve
`y² = x³ + x + 1` over `F_5`, the sampled `x = 1` gives `Δ = 2`, a quadratic
non-residue, and the source's `Err(_) => todo!()` arm panics (for every
random oracle and every fuel bound) instead of resampling. -/
theorem c9_random_point_panics_on_nonresidue :
    (∀ zs : Nat → Int, ∀ fuel : Nat,
      EllipticCurve.random_point (pfOps 5) curveC9
        (fun d => PrimeField.sqrt 5 d zs fuel) 1 = .panic)
    ∧ PrimeField.is_square 5 2 = false := by
  refine ⟨fun zs fuel => ?_, by decide⟩
  rfl

/-- C10: with `P = Infinity`, every `miller` attempt fails with
`InvalidInput`, and `tate_pairing` takes the random-translation fallback on
that failure too: as long as the random point draws succeed, the recursion
(whose `P` never changes) runs forever — for every fuel bound the run ends in
`diverge`, and in particular the `InvalidInput` error is never surfaced. -/
theorem c10_tate_never_surfaces_invalid_input {F : Type} [DecidableEq F]
    (ops : FOps F) (curve cP : EllipticCurve F) (order k : Int)
    (rnd : Nat → RunRes (ECPoint F))
    (h : ∀ i, ∃ pt, rnd i = .ok pt) :
    ∀ fuel (Q : ECPoint F) (pos : Nat),
      tate_pairing ops curve fuel (.INFPOINT cP) Q order k rnd pos = .diverge := by
  intro fuel
  induction fuel with
  | zero => intro Q pos; rfl
  | succ f ih =>
    intro Q pos
    obtain ⟨pt, hpt⟩ := h pos
    have hm : miller ops curve (ECPoint.INFPOINT cP) Q order
        = .error (.InvalidInput "P must not be zero") := rfl
    simp only [tate_pairing, hm, hpt, ih]

/-- Witness for C10 at a concrete instance: `F_5`, the zero curve, an oracle
whose draws always succeed, fuel 3. -/
theorem c10_tate_never_surfaces_invalid_input_witness :
    tate_pairing (pfOps 5) curveZero 3 (.INFPOINT curveZero) basePoint 1 1 rndOk 0
      = .diverge :=
  c10_tate_never_surfaces_invalid_input (pfOps 5) curveZero curveZero 1 1 rndOk
    (fun _ => ⟨basePoint, rfl⟩) 3 basePoint 0
